import Mathlib

/-!
Verification of the scrape-progress monitor and related helpers of
`src/static/app.js` (job-scraper frontend).

The JavaScript is shallowly embedded: each poll of the monitor fetches one
`FetchResult` from a script (a list standing for the successive outcomes of
`apiCall('/scrape/status/...')`), and the observable behaviour — DOM/UI
changes, notifications, scheduled timeouts, job-list refreshes — is recorded
as a trace of `Effect`s.  JavaScript numbers are modelled as `Nat`/`ℚ`
(exact arithmetic), strings as Lean `String` or `List Char`.
-/

namespace JobScraper

/-- The response shape of `GET /api/scrape/status/{sessionId}`:
`status`, `total_urls`, `completed`, `success_count`, `error_count`
(app.js `updateProgress` and `monitorScrapingProgress`). -/
structure ProgressStatus where
  status : String
  total_urls : Nat
  completed : Nat
  success_count : Nat
  error_count : Nat
  deriving DecidableEq, Repr

/-- Outcome of one `apiCall` to the status endpoint: either a decoded
`ProgressStatus`, or a failure (transport error, non-ok HTTP status, or JSON
decoding failure) carrying the JS `error.message` string
(app.js lines 47–67). -/
inductive FetchResult where
  | ok (st : ProgressStatus)
  | err (msg : String)
  deriving DecidableEq, Repr

/-- Observable user-facing effects of the frontend code, in program order. -/
inductive Effect where
  /-- `updateProgress(status)` — progress bar/text update (app.js 183–193). -/
  | updateProgress (st : ProgressStatus)
  /-- `setTimeout(checkProgress, delay)` — a further poll scheduled. -/
  | scheduleDelay (ms : Nat)
  /-- `showProgressSection()` (app.js 147–149). -/
  | showProgress
  /-- `hideProgressSection()` (app.js 151–153). -/
  | hideProgress
  /-- `loadJobs()` — job-list refresh (app.js 195–204). -/
  | refreshJobs
  /-- `showNotification(message, kind)` (app.js 595–617). -/
  | notify (message : String) (kind : String)
  /-- An HTTP request issued through `apiCall(endpoint, ...)`. -/
  | apiRequest (endpoint : String)
  /-- `monitorScrapingProgress()` invoked (polling loop started). -/
  | startMonitor
  deriving DecidableEq, Repr

/-- One execution of the body of `checkProgress` (app.js 158–178) given the
outcome of its status fetch.  Returns the effects of this poll and whether a
continuation was scheduled (`setTimeout(checkProgress, 2000)`).

On a fetch failure, `apiCall` itself emits the
`'API call failed: ' + error.message` error notification before rethrowing
(app.js 62–66), and the `catch` of `checkProgress` then hides the progress
section (app.js 174–177) without any further notification. -/
def checkProgressStep : FetchResult → List Effect × Bool
  | .err msg =>
      ([.notify ("API call failed: " ++ msg) "error", .hideProgress], false)
  | .ok st =>
      if st.status = "running" then
        ([.updateProgress st, .scheduleDelay 2000], true)
      else if st.status = "completed" then
        ([.updateProgress st, .hideProgress, .refreshJobs,
          .notify "Scraping completed successfully" "success"], false)
      else
        ([.updateProgress st, .hideProgress,
          .notify "Scraping failed" "error"], false)

/-- The whole poll chain of `checkProgress`, run against a script of fetch
outcomes: the first component counts the polls issued (status fetches), the
second is the concatenated effect trace.  While the status stays `"running"`
the next script entry is consumed after the scheduled 2000 ms delay; an
exhausted script means the next scheduled poll is still pending, adding no
further polls or effects. -/
def runChain : List FetchResult → Nat × List Effect
  | [] => (0, [])
  | r :: rest =>
      let s := checkProgressStep r
      if s.2 then
        ((runChain rest).1 + 1, s.1 ++ (runChain rest).2)
      else
        (1, s.1)

/-- JavaScript truthiness of `this.currentSession` (a string or `null`):
`null` and the empty string are falsy. -/
def jsTruthy : Option String → Bool
  | none => false
  | some s => !s.isEmpty

/-- `monitorScrapingProgress` (app.js 155–181): a no-op unless a session
identifier is stored and truthy; otherwise it runs the `checkProgress`
chain. -/
def monitorScrapingProgress (currentSession : Option String)
    (script : List FetchResult) : Nat × List Effect :=
  if jsTruthy currentSession then runChain script else (0, [])

/-- The percentage computed by `updateProgress` (app.js 188):
`status.total_urls > 0 ? (status.completed / status.total_urls) * 100 : 0`,
with JS number arithmetic modelled exactly in `ℚ`. -/
def percentage (st : ProgressStatus) : ℚ :=
  if st.total_urls > 0 then
    ((st.completed : ℚ) / (st.total_urls : ℚ)) * 100
  else 0

/-- The `(message, kind)` pairs of the notifications in an effect trace. -/
def notifEvents (effs : List Effect) : List (String × String) :=
  effs.filterMap fun e =>
    match e with
    | .notify m k => some (m, k)
    | _ => none

/-- The ECMAScript whitespace characters: the WhiteSpace production (TAB, VT,
FF, SP, NBSP, ZWNBSP and the Unicode Space_Separator category) together with
the LineTerminators (LF, CR, LS, PS) — the character set stripped by the JS
`trim()` used in `getJobUrls` and `searchJobs`. -/
def jsIsWhitespace (c : Char) : Bool :=
  c = ' ' || c = '\t' || c = '\n' || c = '\r' || c = '\x0b' || c = '\x0c' ||
  c = '\u00A0' || c = '\uFEFF' || c = '\u1680' ||
  (0x2000 ≤ c.toNat && c.toNat ≤ 0x200A) ||
  c = '\u2028' || c = '\u2029' || c = '\u202F' || c = '\u205F' || c = '\u3000'

/-- JS `String.prototype.trim`: strip whitespace from both ends
(modelled over `List Char`). -/
def jsTrim (l : List Char) : List Char :=
  ((l.dropWhile jsIsWhitespace).reverse.dropWhile jsIsWhitespace).reverse

/-- JS `value.split('\n')` (app.js 142): split at every newline character;
like JS, the empty string yields the single piece `[[]]` and separators at
the ends yield empty pieces. -/
def splitOnNewline : List Char → List (List Char)
  | [] => [[]]
  | c :: cs =>
      if c = '\n' then [] :: splitOnNewline cs
      else
        match splitOnNewline cs with
        | [] => [[c]]
        | l :: ls => (c :: l) :: ls

/-- `getJobUrls` (app.js 139–145): split the textarea content on newlines,
trim each line, and keep the non-empty results. -/
def getJobUrls (textareaValue : List Char) : List (List Char) :=
  ((splitOnNewline textareaValue).map jsTrim).filter fun url => url.length > 0

/-- `startScraping` (app.js 93–113), given the textarea content, the stored
`currentSession` and the outcome `resp` of the `POST /api/scrape` call
(`.ok sessionId` or `.error message`; unused when no URLs were entered).
Returns the new `currentSession` and the effect trace.  On an empty URL list
it only warns; on a scrape-request failure `apiCall` notifies first and the
`catch` adds `'Failed to start scraping'`; on success the session is stored,
the progress section shown, the monitor started and a success notification
emitted. -/
def startScraping (textareaValue : List Char) (currentSession : Option String)
    (resp : Except String String) : Option String × List Effect :=
  let urls := getJobUrls textareaValue
  if urls.length = 0 then
    (currentSession, [.notify "Please enter at least one job URL" "warning"])
  else
    match resp with
    | .error msg =>
        (currentSession,
         [.apiRequest "/scrape", .notify ("API call failed: " ++ msg) "error",
          .notify "Failed to start scraping" "error"])
    | .ok sessionId =>
        (some sessionId,
         [.apiRequest "/scrape", .showProgress, .startMonitor,
          .notify ("Started scraping " ++ toString urls.length ++ " job postings")
            "success"])

/-- A stored job as `searchJobs` reads it: `job_title` and `company_name`
are present (non-null — `searchJobs` dereferences them unguardedly),
`location` may be null. -/
structure Job where
  job_title : String
  company_name : String
  location : Option String
  deriving DecidableEq, Repr

/-- JS `String.prototype.toLowerCase`, characterwise, over `List Char`. -/
def lowerChars (s : List Char) : List Char := s.map Char.toLower

/-- JS `hay.includes(needle)`: substring (contiguous infix) containment. -/
def jsIncludes (hay needle : List Char) : Bool := decide (List.IsInfix needle hay)

/-- The filter predicate of `searchJobs` (app.js 512–516): lower-cased
`job_title` or `company_name` contains the lower-cased query, or `location`
is truthy (non-null and non-empty) and its lower-case contains the query. -/
def searchMatch (query : String) (job : Job) : Bool :=
  jsIncludes (lowerChars job.job_title.toList) (lowerChars query.toList) ||
  jsIncludes (lowerChars job.company_name.toList) (lowerChars query.toList) ||
  (match job.location with
   | some loc => !loc.isEmpty && jsIncludes (lowerChars loc.toList) (lowerChars query.toList)
   | none => false)

/-- The spec's wording of a search hit, for comparison with `searchMatch`:
the job's `job_title`, `company_name`, or non-null `location` contains the
query case-insensitively. -/
def specMatch (query : String) (job : Job) : Bool :=
  jsIncludes (lowerChars job.job_title.toList) (lowerChars query.toList) ||
  jsIncludes (lowerChars job.company_name.toList) (lowerChars query.toList) ||
  (match job.location with
   | some loc => jsIncludes (lowerChars loc.toList) (lowerChars query.toList)
   | none => false)

/-- `searchJobs` (app.js 506–519): a query that trims to the empty string
displays the stored list unchanged; any other query displays the filtered
list. -/
def searchJobs (query : String) (currentJobs : List Job) : List Job :=
  if (jsTrim query.toList).isEmpty then currentJobs
  else currentJobs.filter (searchMatch query)

/-! ### Step lemmas for the poll chain -/

theorem checkProgressStep_err (msg : String) :
    checkProgressStep (.err msg) =
      ([.notify ("API call failed: " ++ msg) "error", .hideProgress], false) := rfl

theorem checkProgressStep_running (st : ProgressStatus) (h : st.status = "running") :
    checkProgressStep (.ok st) = ([.updateProgress st, .scheduleDelay 2000], true) := by
  simp [checkProgressStep, h]

theorem checkProgressStep_completed (st : ProgressStatus) (h : st.status = "completed") :
    checkProgressStep (.ok st) =
      ([.updateProgress st, .hideProgress, .refreshJobs,
        .notify "Scraping completed successfully" "success"], false) := by
  simp [checkProgressStep, h]

theorem checkProgressStep_other (st : ProgressStatus)
    (h₁ : st.status ≠ "running") (h₂ : st.status ≠ "completed") :
    checkProgressStep (.ok st) =
      ([.updateProgress st, .hideProgress, .notify "Scraping failed" "error"], false) := by
  simp [checkProgressStep, h₁, h₂]

theorem runChain_cons (r : FetchResult) (rest : List FetchResult) :
    runChain (r :: rest) =
      if (checkProgressStep r).2 then
        ((runChain rest).1 + 1, (checkProgressStep r).1 ++ (runChain rest).2)
      else (1, (checkProgressStep r).1) := rfl

/-! ### The claims -/

/-- **C1**: for every poll step, a further poll is scheduled iff the fetched
status equals `"running"`, and then after a fixed 2000 ms delay; after a poll
that observes any non-running outcome the chain stops: exactly that one poll
happens, and no further poll is ever scheduled. -/
theorem poll_continuation_iff_running (r : FetchResult) (rest : List FetchResult) :
    ((checkProgressStep r).2 = true ↔ ∃ st, r = .ok st ∧ st.status = "running") ∧
    (∀ d, Effect.scheduleDelay d ∈ (checkProgressStep r).1 ↔
        d = 2000 ∧ (checkProgressStep r).2 = true) ∧
    ((checkProgressStep r).2 = false →
        runChain (r :: rest) = (1, (checkProgressStep r).1) ∧
        ∀ d, Effect.scheduleDelay d ∉ (runChain (r :: rest)).2) := by
  have hstep : (checkProgressStep r).2 = true ↔ ∃ st, r = .ok st ∧ st.status = "running" := by
    constructor
    · intro h
      cases r with
      | err msg => rw [checkProgressStep_err] at h; exact absurd h (by simp)
      | ok st =>
        refine ⟨st, rfl, ?_⟩
        by_contra hne
        by_cases hc : st.status = "completed"
        · rw [checkProgressStep_completed st hc] at h; exact absurd h (by simp)
        · rw [checkProgressStep_other st hne hc] at h; exact absurd h (by simp)
    · rintro ⟨st, rfl, hst⟩
      rw [checkProgressStep_running st hst]
  have hdel : ∀ d, Effect.scheduleDelay d ∈ (checkProgressStep r).1 ↔
      d = 2000 ∧ (checkProgressStep r).2 = true := by
    intro d
    cases r with
    | err msg => rw [checkProgressStep_err]; simp
    | ok st =>
      by_cases hr : st.status = "running"
      · rw [checkProgressStep_running st hr]; simp
      · by_cases hc : st.status = "completed"
        · rw [checkProgressStep_completed st hc]; simp
        · rw [checkProgressStep_other st hr hc]; simp
  refine ⟨hstep, hdel, ?_⟩
  intro hterm
  have hrun : runChain (r :: rest) = (1, (checkProgressStep r).1) := by
    rw [runChain_cons, hterm]; simp
  refine ⟨hrun, ?_⟩
  intro d hd
  rw [hrun] at hd
  exact absurd ((hdel d).mp hd).2 (by simp [hterm])

theorem poll_continuation_iff_running_witness :
    (checkProgressStep (.ok ⟨"running", 2, 1, 1, 0⟩)).2 = true ∧
    runChain [FetchResult.ok ⟨"failed", 2, 1, 0, 1⟩, .ok ⟨"running", 2, 1, 1, 0⟩] =
      (1, (checkProgressStep (.ok ⟨"failed", 2, 1, 0, 1⟩)).1) :=
  ⟨(poll_continuation_iff_running (.ok ⟨"running", 2, 1, 1, 0⟩) []).1.mpr
      ⟨⟨"running", 2, 1, 1, 0⟩, rfl, rfl⟩,
   ((poll_continuation_iff_running (.ok ⟨"failed", 2, 1, 0, 1⟩)
      [.ok ⟨"running", 2, 1, 1, 0⟩]).2.2 (by decide)).1⟩

/-- **C2**: on the status sequence `[running, running, completed]` the monitor
issues exactly 3 polls, hides the progress UI, refreshes the job list, and
reports success — two 2000 ms delays separate the three polls. -/
theorem completed_run_three_polls (s₁ s₂ s₃ : ProgressStatus)
    (h₁ : s₁.status = "running") (h₂ : s₂.status = "running")
    (h₃ : s₃.status = "completed") :
    runChain [.ok s₁, .ok s₂, .ok s₃] =
      (3, [.updateProgress s₁, .scheduleDelay 2000,
           .updateProgress s₂, .scheduleDelay 2000,
           .updateProgress s₃, .hideProgress, .refreshJobs,
           .notify "Scraping completed successfully" "success"]) := by
  rw [runChain_cons, checkProgressStep_running s₁ h₁]
  rw [runChain_cons, checkProgressStep_running s₂ h₂]
  rw [runChain_cons, checkProgressStep_completed s₃ h₃]
  simp [runChain]

theorem completed_run_three_polls_witness :
    runChain [.ok ⟨"running", 3, 1, 1, 0⟩, .ok ⟨"running", 3, 2, 2, 0⟩,
              .ok ⟨"completed", 3, 3, 3, 0⟩] =
      (3, [.updateProgress ⟨"running", 3, 1, 1, 0⟩, .scheduleDelay 2000,
           .updateProgress ⟨"running", 3, 2, 2, 0⟩, .scheduleDelay 2000,
           .updateProgress ⟨"completed", 3, 3, 3, 0⟩, .hideProgress, .refreshJobs,
           .notify "Scraping completed successfully" "success"]) :=
  completed_run_three_polls _ _ _ rfl rfl rfl

/-- **C3**: on the status sequence `[running, X]` with `X` neither `"running"`
nor `"completed"` (e.g. `"failed"`) the monitor issues exactly 2 polls, hides
the progress UI and reports failure; the job list is not refreshed, and all
such `X` behave identically. -/
theorem failed_run_two_polls (s₁ s₂ : ProgressStatus)
    (h₁ : s₁.status = "running")
    (h₂r : s₂.status ≠ "running") (h₂c : s₂.status ≠ "completed") :
    runChain [.ok s₁, .ok s₂] =
      (2, [.updateProgress s₁, .scheduleDelay 2000,
           .updateProgress s₂, .hideProgress,
           .notify "Scraping failed" "error"]) ∧
    Effect.refreshJobs ∉ (runChain [.ok s₁, .ok s₂]).2 := by
  have h : runChain [.ok s₁, .ok s₂] =
      (2, [.updateProgress s₁, .scheduleDelay 2000,
           .updateProgress s₂, .hideProgress,
           .notify "Scraping failed" "error"]) := by
    rw [runChain_cons, checkProgressStep_running s₁ h₁]
    rw [runChain_cons, checkProgressStep_other s₂ h₂r h₂c]
    simp [runChain]
  refine ⟨h, ?_⟩
  rw [h]
  simp

theorem failed_run_two_polls_witness :
    runChain [.ok ⟨"running", 2, 1, 1, 0⟩, .ok ⟨"failed", 2, 2, 1, 1⟩] =
      (2, [.updateProgress ⟨"running", 2, 1, 1, 0⟩, .scheduleDelay 2000,
           .updateProgress ⟨"failed", 2, 2, 1, 1⟩, .hideProgress,
           .notify "Scraping failed" "error"]) :=
  (failed_run_two_polls _ _ rfl (by decide) (by decide)).1

/-- **C4**: when the status fetch of a poll fails (transport error, non-ok
HTTP status, or decoding failure) the chain terminates at once — exactly 1
poll, no retry regardless of what further outcomes the backend would have
produced — the progress UI is hidden, and a failure notification (emitted by
`apiCall` itself) is shown. -/
theorem fetch_error_single_poll (msg : String) (rest : List FetchResult) :
    runChain (.err msg :: rest) =
      (1, [.notify ("API call failed: " ++ msg) "error", .hideProgress]) := by
  rw [runChain_cons, checkProgressStep_err]
  simp

/-- **C5**: for every `ProgressStatus` with `total_urls = 0` the displayed
percentage is `0`; the division is guarded, so no division error is
possible (the Lean model `percentage` is total). -/
theorem percentage_zero_total (st : ProgressStatus) (h : st.total_urls = 0) :
    percentage st = 0 := by
  simp [percentage, h]

theorem percentage_zero_total_witness :
    (ProgressStatus.mk "running" 0 0 0 0).total_urls = 0 ∧
    percentage (ProgressStatus.mk "running" 0 0 0 0) = 0 :=
  ⟨rfl, percentage_zero_total (ProgressStatus.mk "running" 0 0 0 0) rfl⟩

/-- **C6**: for every `ProgressStatus` with `total_urls > 0` and
`completed ≤ total_urls` the displayed percentage equals
`100 * completed / total_urls` (exact rational arithmetic). -/
theorem percentage_formula (st : ProgressStatus)
    (hpos : 0 < st.total_urls) (hle : st.completed ≤ st.total_urls) :
    percentage st = 100 * (st.completed : ℚ) / (st.total_urls : ℚ) := by
  rw [percentage, if_pos hpos]
  ring

theorem percentage_formula_witness :
    0 < (ProgressStatus.mk "running" 4 1 1 0).total_urls ∧
    (ProgressStatus.mk "running" 4 1 1 0).completed ≤
      (ProgressStatus.mk "running" 4 1 1 0).total_urls ∧
    percentage (ProgressStatus.mk "running" 4 1 1 0) =
      100 * ((ProgressStatus.mk "running" 4 1 1 0).completed : ℚ) /
        ((ProgressStatus.mk "running" 4 1 1 0).total_urls : ℚ) :=
  ⟨by decide, by decide,
   percentage_formula (ProgressStatus.mk "running" 4 1 1 0) (by decide) (by decide)⟩

/-- **C7 (counterexample)**: a transport failure and a semantic `"failed"`
status are *not* reported with an identical user-facing message — at a
concrete input the notification lists of the two runs differ
(`"API call failed: HTTP error! status: 500"` versus `"Scraping failed"`). -/
theorem failure_messages_differ :
    notifEvents (runChain [.err "HTTP error! status: 500"]).2 ≠
      notifEvents (runChain [.ok ⟨"failed", 3, 3, 1, 2⟩]).2 := by
  decide

/-- **C7 (amended)**: a transport/HTTP/decoding failure and a semantic
`"failed"` status are both reported through the same notification surface
with the same severity kind `"error"` — one undifferentiated failure signal
in kind — but the message texts differ: `"API call failed: " ++ msg` for a
transport failure versus the fixed `"Scraping failed"` for a semantic
failure. -/
theorem failure_reporting_same_kind (msg : String) (rest : List FetchResult)
    (st : ProgressStatus)
    (h₁ : st.status ≠ "running") (h₂ : st.status ≠ "completed") :
    notifEvents (runChain (.err msg :: rest)).2 =
      [("API call failed: " ++ msg, "error")] ∧
    notifEvents (runChain [.ok st]).2 = [("Scraping failed", "error")] := by
  constructor
  · rw [runChain_cons, checkProgressStep_err]
    simp [notifEvents]
  · rw [runChain_cons, checkProgressStep_other st h₁ h₂]
    simp [notifEvents]

theorem failure_reporting_same_kind_witness :
    notifEvents (runChain [.err "HTTP error! status: 500"]).2 =
      [("API call failed: " ++ "HTTP error! status: 500", "error")] ∧
    notifEvents (runChain [.ok ⟨"failed", 3, 3, 1, 2⟩]).2 =
      [("Scraping failed", "error")] :=
  failure_reporting_same_kind "HTTP error! status: 500" []
    ⟨"failed", 3, 3, 1, 2⟩ (by decide) (by decide)

/-- **C8**: with no active session identifier (`currentSession` is `null` or
the empty string, both JS-falsy) invoking the monitor is a no-op: no status
fetch (0 polls) and no effects at all, for every script of backend
outcomes. -/
theorem monitor_noop_without_session (script : List FetchResult) :
    monitorScrapingProgress none script = (0, []) ∧
    monitorScrapingProgress (some "") script = (0, []) :=
  ⟨rfl, rfl⟩

/-! ### Lemmas about trimming and splitting -/

theorem jsTrim_eq_nil_iff (l : List Char) :
    jsTrim l = [] ↔ ∀ c ∈ l, jsIsWhitespace c = true := by
  unfold jsTrim
  rw [List.reverse_eq_nil_iff, List.dropWhile_eq_nil_iff]
  constructor
  · intro h c hc
    by_cases hmem : c ∈ l.dropWhile jsIsWhitespace
    · exact h c (List.mem_reverse.mpr hmem)
    · have hsplit := List.takeWhile_append_dropWhile (p := jsIsWhitespace) (l := l)
      rw [← hsplit] at hc
      rcases List.mem_append.mp hc with h₁ | h₂
      · exact List.mem_takeWhile_imp h₁
      · exact absurd h₂ hmem
  · intro h c hc
    exact h c ((List.dropWhile_sublist jsIsWhitespace).subset (List.mem_reverse.mp hc))

theorem splitOnNewline_ne_nil (l : List Char) : splitOnNewline l ≠ [] := by
  induction l with
  | nil => simp [splitOnNewline]
  | cons c cs ih =>
    simp only [splitOnNewline]
    split
    · simp
    · cases h : splitOnNewline cs with
      | nil => exact absurd h ih
      | cons p ps => simp

theorem mem_of_mem_splitOnNewline (l : List Char) :
    ∀ piece ∈ splitOnNewline l, ∀ c ∈ piece, c ∈ l := by
  induction l with
  | nil =>
    intro piece hp c hc
    simp [splitOnNewline] at hp
    subst hp
    simp at hc
  | cons a as ih =>
    intro piece hp c hc
    simp only [splitOnNewline] at hp
    by_cases ha : a = '\n'
    · rw [if_pos ha] at hp
      rcases List.mem_cons.mp hp with h | h
      · subst h; simp at hc
      · exact List.mem_cons_of_mem a (ih piece h c hc)
    · rw [if_neg ha] at hp
      cases hs : splitOnNewline as with
      | nil => exact absurd hs (splitOnNewline_ne_nil as)
      | cons p ps =>
        rw [hs] at hp
        rcases List.mem_cons.mp hp with h | h
        · subst h
          rcases List.mem_cons.mp hc with h' | h'
          · subst h'; exact List.mem_cons_self c as
          · exact List.mem_cons_of_mem a
              (ih p (by rw [hs]; exact List.mem_cons_self p ps) c h')
        · exact List.mem_cons_of_mem a
            (ih piece (by rw [hs]; exact List.mem_cons_of_mem p h) c hc)

theorem getJobUrls_whitespace (content : List Char)
    (h : ∀ c ∈ content, jsIsWhitespace c = true) : getJobUrls content = [] := by
  unfold getJobUrls
  rw [List.filter_eq_nil_iff]
  intro a ha
  rcases List.mem_map.mp ha with ⟨piece, hpiece, rfl⟩
  have hall : ∀ c ∈ piece, jsIsWhitespace c = true := fun c hc =>
    h c (mem_of_mem_splitOnNewline content piece hpiece c hc)
  have htrim : jsTrim piece = [] := (jsTrim_eq_nil_iff piece).mpr hall
  simp [htrim]

/-- **C9**: whitespace-only textarea content (only whitespace characters and
blank lines) makes `getJobUrls` return the empty list, and `startScraping`
then performs no API call, stores no session, starts no polling loop, and
emits only the warning notification — `currentSession` is unchanged, whatever
the backend would have answered. -/
theorem whitespace_input_no_scrape (content : List Char) (cs : Option String)
    (resp : Except String String)
    (h : ∀ c ∈ content, jsIsWhitespace c = true) :
    getJobUrls content = [] ∧
    startScraping content cs resp =
      (cs, [.notify "Please enter at least one job URL" "warning"]) ∧
    (∀ ep, Effect.apiRequest ep ∉ (startScraping content cs resp).2) ∧
    Effect.startMonitor ∉ (startScraping content cs resp).2 ∧
    (startScraping content cs resp).1 = cs := by
  have hurls := getJobUrls_whitespace content h
  have hstart : startScraping content cs resp =
      (cs, [.notify "Please enter at least one job URL" "warning"]) := by
    unfold startScraping
    rw [hurls]
    simp
  refine ⟨hurls, hstart, ?_, ?_, ?_⟩
  · intro ep
    rw [hstart]
    simp
  · rw [hstart]
    simp
  · rw [hstart]

theorem whitespace_input_no_scrape_witness :
    getJobUrls [' ', '\n', '\t'] = [] ∧
    startScraping [' ', '\n', '\t'] none (Except.ok "sess") =
      (none, [.notify "Please enter at least one job URL" "warning"]) :=
  ⟨(whitespace_input_no_scrape [' ', '\n', '\t'] none (Except.ok "sess") (by decide)).1,
   (whitespace_input_no_scrape [' ', '\n', '\t'] none (Except.ok "sess") (by decide)).2.1⟩

/-! ### Search filtering -/

theorem searchMatch_eq_specMatch (query : String) (hq : query.toList ≠ [])
    (job : Job) : searchMatch query job = specMatch query job := by
  rcases job with ⟨t, cn, loc⟩
  cases loc with
  | none => rfl
  | some loc =>
    show (_ || _ || (!loc.isEmpty && jsIncludes (lowerChars loc.toList) _)) =
      (_ || _ || jsIncludes (lowerChars loc.toList) _)
    by_cases he : loc.isEmpty
    · have hl : loc.toList = [] := by
        rw [(String.isEmpty_iff loc).mp he]
        rfl
      have hnil : jsIncludes (lowerChars loc.toList) (lowerChars query.toList) = false := by
        rw [hl]
        unfold jsIncludes lowerChars
        simp only [List.map_nil]
        rw [decide_eq_false_iff_not]
        intro hinf
        exact hq (List.map_eq_nil_iff.mp (List.eq_nil_of_infix_nil hinf))
      rw [he, hnil]
      simp
    · simp [he]

/-- **C10**: for stored jobs with present `job_title` and `company_name`,
`searchJobs` with a whitespace-only query displays the full stored list
unchanged, and with any other query displays exactly the jobs — a sublist of
the stored list, kept in order — whose `job_title`, `company_name`, or
non-null `location` contains the query case-insensitively (`specMatch`). -/
theorem search_filter_correct (query : String) (jobs : List Job) :
    ((∀ c ∈ query.toList, jsIsWhitespace c = true) →
        searchJobs query jobs = jobs) ∧
    ((¬ ∀ c ∈ query.toList, jsIsWhitespace c = true) →
        searchJobs query jobs = jobs.filter (specMatch query) ∧
        (searchJobs query jobs).Sublist jobs) := by
  constructor
  · intro h
    unfold searchJobs
    rw [if_pos]
    rw [List.isEmpty_iff]
    exact (jsTrim_eq_nil_iff query.toList).mpr h
  · intro h
    have hne : query.toList ≠ [] := by
      intro hnil
      refine h fun c hc => ?_
      rw [hnil] at hc
      simp at hc
    have htrim : jsTrim query.toList ≠ [] := fun hnil =>
      h ((jsTrim_eq_nil_iff query.toList).mp hnil)
    have hsj : searchJobs query jobs = jobs.filter (searchMatch query) := by
      unfold searchJobs
      rw [if_neg]
      rw [List.isEmpty_iff]
      exact htrim
    constructor
    · rw [hsj]
      exact List.filter_congr fun job hj => searchMatch_eq_specMatch query hne job
    · rw [hsj]
      exact List.filter_sublist jobs

theorem search_filter_correct_witness :
    searchJobs " " [Job.mk "Engineer" "Acme" none] = [Job.mk "Engineer" "Acme" none] ∧
    searchJobs "acme" [Job.mk "Engineer" "Acme" none] =
      [Job.mk "Engineer" "Acme" none].filter (specMatch "acme") :=
  ⟨(search_filter_correct " " [Job.mk "Engineer" "Acme" none]).1 (by decide),
   ((search_filter_correct "acme" [Job.mk "Engineer" "Acme" none]).2 (by decide)).1⟩

end JobScraper
